import Mathlib

/-!
Shallow embedding of `src/lib/testdroid.js` (mozilla-b2g/testdroid-client).

The client is a JS class holding credentials and a mutable token cache.
Network effects are modelled by passing the wire's response for each issued
request as an explicit argument, and by returning the list of requests an
operation issued together with its result and the updated client state.
Times are milliseconds since the epoch, as `Date.now()` returns, modelled
as `Nat`. Thrown JS errors are modelled with `Except`.
-/

namespace Testdroid

/-- JS truthiness of `this.token`: `undefined` (here `none`) and the empty
string are falsy, every other string is truthy. -/
def truthyStr : Option String → Bool
  | none => false
  | some s => !(s == "")

/-- Headers object: a JS object with string keys, modelled as an association
list in which assignment replaces an existing binding of the key. -/
abbrev Headers := List (String × String)

/-- Reading a key of a headers object (`undefined` becomes `none`). -/
def hget : Headers → String → Option String
  | [], _ => none
  | (k', v) :: t, k => if k' == k then some v else hget t k

/-- Assignment `headers[k] = v`: replaces an existing binding, else appends. -/
def hset : Headers → String → String → Headers
  | [], k, v => [(k, v)]
  | (k', v') :: t, k, v => if k' == k then (k, v) :: t else (k', v') :: hset t k v

/-- Options object accepted by `__request`: `payload` and `headers`, each
defaulting to the empty object (lines 70-73 of testdroid.js). -/
structure ReqOpts where
  payload : List (String × String) := []
  headers : Headers := []
deriving Repr, DecidableEq

/-- An HTTP request as `__request` assembles it: method, endpoint, headers,
and the payload placed in the query string for GET or in the body otherwise. -/
structure HttpRequest where
  method : String
  endpoint : String
  headers : Headers
  query : List (String × String)
  body : List (String × String)
deriving Repr, DecidableEq

/-- Model of the `url-join` library call: the claims under study never depend
on slash normalisation, so joining is plain concatenation with one slash. -/
def urljoin (a b : String) : String := a ++ "/" ++ b

/-- Server-side error object attached to a non-success response
(superagent's `res.error`, whose `message` holds the server message). -/
structure ServerError where
  message : String
deriving Repr, DecidableEq

/-- A wire response: `ok` flag, `error` object and parsed `body`. -/
structure Response (β : Type) where
  ok : Bool
  error : ServerError
  body : β
deriving Repr, DecidableEq

/-- Client state: constructor fields (lines 40-47) plus the mutable token
cache `token` / `refreshToken` / `tokenExpiration`, all unset at first. -/
structure Client where
  baseUrl : String
  apiUrl : String
  username : String
  password : String
  token : Option String := none
  refreshToken : Option String := none
  tokenExpiration : Nat := 0
deriving Repr, DecidableEq

/-- The constructor: `apiUrl` is the base url with `api/v2/` appended. -/
def mkClient (url username password : String) : Client :=
  { baseUrl := url, apiUrl := url ++ "api/v2/", username := username, password := password }

/-- Form payload sent to `oauth/token` (the two grant shapes of getToken,
lines 357-362 and 370-374); absent fields are `none`. -/
structure TokenRequestPayload where
  client_id : String
  grant_type : String
  username : Option String := none
  password : Option String := none
  refresh_token : Option String := none
deriving Repr, DecidableEq

/-- Password-grant payload (getToken lines 357-362). -/
def passwordPayload (c : Client) : TokenRequestPayload :=
  { client_id := "testdroid-cloud-api", grant_type := "password",
    username := some c.username, password := some c.password }

/-- Refresh-grant payload (getToken lines 370-374). -/
def refreshPayload (c : Client) : TokenRequestPayload :=
  { client_id := "testdroid-cloud-api", grant_type := "refresh_token",
    refresh_token := c.refreshToken }

/-- Body of the `oauth/token` response (fields getToken reads). -/
structure TokenResponse where
  ok : Bool
  error_description : String := ""
  access_token : String := ""
  refresh_token : String := ""
  expires_in : Nat := 0
deriving Repr, DecidableEq

/-- Outcome of a `getToken` call: the returned token or thrown message, the
client state afterwards, and the token-acquisition requests issued (0 or 1). -/
structure GetTokenResult where
  result : Except String String
  client : Client
  requests : List TokenRequestPayload
deriving Repr

/-- Tail of `getToken` (lines 383-398): post the payload to `oauth/token`;
on a non-success response throw (state untouched), otherwise store the new
access token, refresh token and expiration `now + expires_in * 1000`. -/
def sendTokenRequest (c : Client) (payload : TokenRequestPayload) (now : Nat)
    (resp : TokenResponse) : GetTokenResult :=
  if resp.ok = false then
    { result := .error ("Could not retrieve token. Error Reponse: " ++ resp.error_description),
      client := c, requests := [payload] }
  else
    { result := .ok resp.access_token,
      client := { c with refreshToken := some resp.refresh_token,
                         token := some resp.access_token,
                         tokenExpiration := now + resp.expires_in * 1000 },
      requests := [payload] }

/-- getToken (lines 352-399). `now` is `Date.now()` and `resp` is the wire's
answer to the token request, consulted only when one is issued. The branch
structure mirrors the source: password grant when the token is falsy or
`now` has passed the stored expiration; otherwise return the cached token
when the expiration is more than 60000 ms away, else refresh. -/
def getToken (c : Client) (now : Nat) (resp : TokenResponse) : GetTokenResult :=
  if truthyStr c.token = false ∨ now > c.tokenExpiration then
    sendTokenRequest c (passwordPayload c) now resp
  else if c.tokenExpiration > now + 60000 then
    { result := .ok (c.token.getD ""), client := c, requests := [] }
  else
    sendTokenRequest c (refreshPayload c) now resp

/-- buildHeaders (lines 96-105): set `Authorization` to the bearer token
unconditionally, then default `Accept` to `application/json` only when the
key is absent. `token` is the string `getToken` returned. -/
def buildHeaders (headers : Headers) (token : String) : Headers :=
  let h1 := hset headers "Authorization" ("Bearer " ++ token)
  if (hget h1 "Accept").isSome then h1 else hset h1 "Accept" "application/json"

/-- Request assembly of `__request` (lines 70-86), given the token: join the
api url with the path, build headers, and place the payload in the query
string for GET and in the body for every other method. -/
def mkRequest (apiUrl method path : String) (opts : ReqOpts) (token : String) : HttpRequest :=
  let endpoint := urljoin apiUrl path
  let headers := buildHeaders opts.headers token
  if method.toUpper == "GET" then
    { method := method.toUpper, endpoint := endpoint, headers := headers,
      query := opts.payload, body := [] }
  else
    { method := method.toUpper, endpoint := endpoint, headers := headers,
      query := [], body := opts.payload }

/-- A full `__request` step: obtain a token via `getToken` (propagating its
thrown error), then assemble the request. Returns the request and the
client state `getToken` left behind. -/
def requestOp (c : Client) (now : Nat) (tokResp : TokenResponse)
    (method path : String) (opts : ReqOpts) : Except String (HttpRequest × Client) :=
  match (getToken c now tokResp).result with
  | .error e => .error e
  | .ok tok => .ok (mkRequest c.apiUrl method path opts tok, (getToken c now tokResp).client)

/-- del (lines 114-124): throw `res.error` when the response is not ok. -/
def del {β : Type} (res : Response β) : Except ServerError (Response β) :=
  if res.ok = false then .error res.error else .ok res

/-- get (lines 141-151): throw `res.error` when the response is not ok. -/
def get {β : Type} (res : Response β) : Except ServerError (Response β) :=
  if res.ok = false then .error res.error else .ok res

/-- Option transformation of post (lines 410-412): `opts.headers` is
reassigned wholesale to a single Content-Type binding; this is the value the
caller's mutated `opts` object holds afterwards. -/
def postOpts (opts : ReqOpts) : ReqOpts :=
  { opts with headers := [("Content-Type", "application/x-www-form-urlencoded")] }

/-- post (lines 408-416): issues the request and returns the response with
no `ok` check of its own. -/
def post {β : Type} (res : Response β) : Except ServerError (Response β) :=
  .ok res

/-- startDeviceSession (lines 424-438): post, then throw with the server
message on a non-success response, else return `res.body`. -/
def startDeviceSession {β : Type} (deviceId : String) (res : Response β) :
    Except ServerError β :=
  match post res with
  | .error e => .error e
  | .ok r =>
    if r.ok = false then
      .error ⟨"Could not create session for " ++ deviceId ++ ". " ++ r.error.message⟩
    else .ok r.body

/-- stopDeviceSession (lines 445-457): post, then throw with the server
message on a non-success response, else return the response. -/
def stopDeviceSession {β : Type} (sessionId : String) (res : Response β) :
    Except ServerError (Response β) :=
  match post res with
  | .error e => .error e
  | .ok r =>
    if r.ok = false then
      .error ⟨"Could not stop the session properly for " ++ sessionId ++ ".  " ++ r.error.message⟩
    else .ok r

/-- A device record: the display name getDevicesByName filters on, plus the
rest of the record, opaque to the client. -/
structure Device (α : Type) where
  displayName : String
  info : α
deriving Repr, DecidableEq

/-- Body shape of the `devices` endpoint: a `data` list of devices. -/
structure DevicesBody (α : Type) where
  data : List (Device α)
deriving Repr, DecidableEq

/-- Query payload getDevices sends (line 159). -/
def getDevicesQuery (limit : Nat) : List (String × String) :=
  [("limit", toString limit)]

/-- getDevices (lines 158-162): issue a get of `devices` with the limit in
the payload and extract `res.body.data`. Returns the query payload sent
alongside the outcome. -/
def getDevices {α : Type} (limit : Nat) (res : Response (DevicesBody α)) :
    List (String × String) × Except ServerError (List (Device α)) :=
  (getDevicesQuery limit, (get res).map fun r => r.body.data)

/-- getDevicesByName (lines 169-177): fetch all devices (default limit 0)
and keep those whose `displayName` strictly equals the requested name. -/
def getDevicesByName {α : Type} (deviceName : String) (res : Response (DevicesBody α)) :
    List (String × String) × Except ServerError (List (Device α)) :=
  let out := getDevices 0 res
  (out.1, out.2.map fun devices => devices.filter fun d => d.displayName == deviceName)

/-- Response of one `proxy-plugin/proxies` query: a list body. -/
structure ProxyResponse (α : Type) where
  ok : Bool
  error : ServerError
  body : List α
deriving Repr, DecidableEq

/-- Observable steps of getProxy: a numbered query attempt, or a sleep of
the given number of milliseconds. -/
inductive ProxyEvent (α : Type) where
  | attempt (i : Nat) (res : ProxyResponse α)
  | sleep (ms : Nat)
deriving Repr, DecidableEq

/-- Errors getProxy can throw: one propagated from `get` on a non-success
response, or the retry-exhaustion error thrown at line 340. -/
inductive ProxyError where
  | request (e : ServerError)
  | timeout (msg : String)
deriving Repr, DecidableEq

/-- Message of the retry-exhaustion error (line 338). -/
def proxyTimeoutMessage (type sessionId : String) : String :=
  "Could not get " ++ type ++ " proxy session for " ++ sessionId

/-- The polling loop of getProxy (lines 328-335). `resp i` is the wire's
answer to attempt `i`; `r` attempts remain; `last` is the value of the JS
variable `res` before the iteration. Each attempt calls `get`, which throws
`res.error` on a non-success response; a nonempty body breaks out of the
loop; otherwise the loop sleeps 5000 ms and retries. The second component
is the thrown error, or the final value of `res`. -/
def getProxyLoop {α : Type} (resp : Nat → ProxyResponse α) :
    Nat → Nat → Option (ProxyResponse α) →
    List (ProxyEvent α) × Except ServerError (Option (ProxyResponse α))
  | _, 0, last => ([], .ok last)
  | i, r + 1, _ =>
    let cur := resp i
    if cur.ok = false then
      ([ProxyEvent.attempt i cur], .error cur.error)
    else if cur.ok && !cur.body.isEmpty then
      ([ProxyEvent.attempt i cur], .ok (some cur))
    else
      let rest := getProxyLoop resp (i + 1) r (some cur)
      (ProxyEvent.attempt i cur :: ProxyEvent.sleep 5000 :: rest.1, rest.2)

/-- getProxy (lines 315-344): run the loop with maxRetries = 30 starting at
attempt 1; propagate an error thrown by `get`; afterwards throw the
timeout error when the final response is not ok or has an empty body, else
return `res.body[0]`. (The `none` case cannot arise for 30 retries; in JS
`res` would still be undefined there and the final check would throw.) -/
def getProxy {α : Type} (resp : Nat → ProxyResponse α) (type sessionId : String) :
    List (ProxyEvent α) × Except ProxyError α :=
  let out := getProxyLoop resp 1 30 none
  match out.2 with
  | .error e => (out.1, .error (ProxyError.request e))
  | .ok none => (out.1, .error (ProxyError.timeout (proxyTimeoutMessage type sessionId)))
  | .ok (some res) =>
    if res.ok = false then
      (out.1, .error (ProxyError.timeout (proxyTimeoutMessage type sessionId)))
    else
      match res.body with
      | [] => (out.1, .error (ProxyError.timeout (proxyTimeoutMessage type sessionId)))
      | x :: _ => (out.1, .ok x)

/-- Whether an event is a query attempt. -/
def isAttempt {α : Type} : ProxyEvent α → Bool
  | .attempt _ _ => true
  | .sleep _ => false

/-- Number of query attempts in an event trace. -/
def countAttempts {α : Type} (evs : List (ProxyEvent α)) : Nat :=
  evs.countP isAttempt

/-- Trace of `r` consecutive attempts that all return ok-but-empty results,
starting at attempt `i`: each attempt is followed by a 5000 ms sleep. -/
def emptyAttemptEvents {α : Type} (resp : Nat → ProxyResponse α) : Nat → Nat → List (ProxyEvent α)
  | _, 0 => []
  | i, r + 1 =>
    ProxyEvent.attempt i (resp i) :: ProxyEvent.sleep 5000 :: emptyAttemptEvents resp (i + 1) r

/-! Concrete sample inputs used to instantiate theorems with hypotheses. -/

/-- A client holding a cached token far from expiry. -/
def sampleClientFresh : Client :=
  { baseUrl := "http://cloud/", apiUrl := "http://cloud/api/v2/", username := "joe",
    password := "pw", token := some "tok", refreshToken := some "rt",
    tokenExpiration := 1000000 }

/-- A client holding a cached token whose expiration has passed (at now = 2000). -/
def sampleClientExpired : Client :=
  { sampleClientFresh with tokenExpiration := 1000 }

/-- A client holding an unexpired token within 60 s of expiry (at now = 2000). -/
def sampleClientNear : Client :=
  { sampleClientFresh with tokenExpiration := 50000 }

/-- A fresh client with no cached token. -/
def sampleClientNew : Client := mkClient "http://cloud/" "joe" "pw"

/-- A successful `oauth/token` response. -/
def sampleTokenResponse : TokenResponse :=
  { ok := true, access_token := "new", refresh_token := "nr", expires_in := 3600 }

/-- A successful `devices` response with a mixed device list. -/
def sampleDevicesResponse : Response (DevicesBody Nat) :=
  { ok := true, error := ⟨""⟩, body := ⟨[⟨"X", 0⟩, ⟨"Y", 1⟩, ⟨"X", 2⟩]⟩ }

/-- Request options carrying a stale Authorization header and no Accept. -/
def sampleOpts : ReqOpts :=
  { payload := [("limit", "1")], headers := [("Authorization", "stale"), ("x-user", "foo")] }

/-! Helper lemmas about the headers object. -/

theorem hget_hset_self (h : Headers) (k v : String) : hget (hset h k v) k = some v := by
  induction h with
  | nil => simp [hset, hget]
  | cons p t ih =>
    obtain ⟨k', v'⟩ := p
    by_cases hk : k' == k
    · simp [hset, hk, hget]
    · simp [hset, hk, hget, ih]

theorem hget_hset_ne (h : Headers) (k k' v : String) (hne : k ≠ k') :
    hget (hset h k v) k' = hget h k' := by
  induction h with
  | nil =>
    simp only [hset, hget]
    rw [if_neg]
    simp [hne]
  | cons p t ih =>
    obtain ⟨k0, v0⟩ := p
    by_cases hk : k0 == k
    · have hk0 : k0 = k := by simpa using hk
      have hk' : (k0 == k') = false := by
        rw [beq_eq_false_iff_ne, hk0]
        exact hne
      have hkk' : (k == k') = false := by
        rw [beq_eq_false_iff_ne]
        exact hne
      simp [hset, hk, hget, hk', hkk']
    · by_cases h0 : k0 == k'
      · simp [hset, hk, hget, h0]
      · simp [hset, hk, hget, h0, ih]

theorem buildHeaders_auth (h : Headers) (tok : String) :
    hget (buildHeaders h tok) "Authorization" = some ("Bearer " ++ tok) := by
  cases h2 : hget (hset h "Authorization" ("Bearer " ++ tok)) "Accept" with
  | none =>
    simp only [buildHeaders, h2, Option.isSome_none, Bool.false_eq_true, if_false]
    rw [hget_hset_ne (hset h "Authorization" ("Bearer " ++ tok)) "Accept" "Authorization"
      "application/json" (by decide), hget_hset_self]
  | some a =>
    simp only [buildHeaders, h2, Option.isSome_some, if_true, hget_hset_self]

theorem buildHeaders_accept_some (h : Headers) (tok a : String)
    (ha : hget h "Accept" = some a) :
    hget (buildHeaders h tok) "Accept" = some a := by
  have h1 : hget (hset h "Authorization" ("Bearer " ++ tok)) "Accept" = some a := by
    rw [hget_hset_ne _ _ _ _ (by decide), ha]
  simp only [buildHeaders, h1, Option.isSome_some, if_true]

theorem buildHeaders_accept_none (h : Headers) (tok : String)
    (ha : hget h "Accept" = none) :
    hget (buildHeaders h tok) "Accept" = some "application/json" := by
  have h1 : hget (hset h "Authorization" ("Bearer " ++ tok)) "Accept" = none := by
    rw [hget_hset_ne _ _ _ _ (by decide), ha]
  simp only [buildHeaders, h1, Option.isSome_none, Bool.false_eq_true, if_false,
    hget_hset_self]

theorem mkRequest_headers (apiUrl method path : String) (opts : ReqOpts) (tok : String) :
    (mkRequest apiUrl method path opts tok).headers = buildHeaders opts.headers tok := by
  by_cases hm : (method.toUpper == "GET")
  · simp [mkRequest, hm]
  · simp [mkRequest, hm]

/-- C2: the claim groups post with get and del, but post (lines 408-416)
issues the request and returns the response without any `ok` check: on this
failing response it returns the response instead of throwing. -/
theorem post_skips_ok_check_cex :
    post ({ ok := false, error := ⟨"server says no"⟩, body := 0 } : Response Nat) =
      .ok { ok := false, error := ⟨"server says no"⟩, body := 0 } ∧
    post ({ ok := false, error := ⟨"server says no"⟩, body := 0 } : Response Nat) ≠
      .error ⟨"server says no"⟩ :=
  ⟨rfl, fun h => Except.noConfusion h⟩

/-- C2 (amended): get and del throw the response's error object whenever the
response indicates failure and return the response otherwise; post returns
the response in both cases, performing no success check of its own. -/
theorem verb_wrappers_ok_check {β : Type} (res : Response β) :
    (res.ok = false →
      get res = .error res.error ∧ del res = .error res.error ∧ post res = .ok res) ∧
    (res.ok = true →
      get res = .ok res ∧ del res = .ok res ∧ post res = .ok res) := by
  cases hok : res.ok <;>
    simp [Testdroid.get, del, post, hok]

/-- C6: startDeviceSession and stopDeviceSession throw an error whose message
carries the server-provided error message (`res.error.message`) whenever the
response is non-success, and return the response body, respectively the
response, otherwise. -/
theorem deviceSession_error_spec {β : Type} (deviceId sessionId : String) (res : Response β) :
    (res.ok = false →
      startDeviceSession deviceId res =
        .error ⟨"Could not create session for " ++ deviceId ++ ". " ++ res.error.message⟩ ∧
      stopDeviceSession sessionId res =
        .error ⟨"Could not stop the session properly for " ++ sessionId ++ ".  " ++
          res.error.message⟩) ∧
    (res.ok = true →
      startDeviceSession deviceId res = .ok res.body ∧
      stopDeviceSession sessionId res = .ok res) := by
  cases hok : res.ok <;>
    simp [startDeviceSession, stopDeviceSession, post, hok]

/-- C9: post reassigns `opts.headers` wholesale to the single binding
Content-Type: application/x-www-form-urlencoded (lines 410-412), so every
caller-supplied header is discarded rather than merged, while the payload is
untouched; `postOpts opts` is the value the caller's mutated opts object
holds after the call. -/
theorem post_replaces_headers (opts : ReqOpts) :
    (postOpts opts).headers = [("Content-Type", "application/x-www-form-urlencoded")] ∧
    (postOpts opts).payload = opts.payload ∧
    (∀ k v, hget opts.headers k = some v → k ≠ "Content-Type" →
      hget (postOpts opts).headers k = none) := by
  refine ⟨rfl, rfl, ?_⟩
  intro k v _ hk
  have hck : ("Content-Type" == k) = false := by
    rw [beq_eq_false_iff_ne]
    exact fun h => hk h.symm
  simp [postOpts, hget, hck]

/-- C10: a request assembled by `__request` carries an Authorization header
equal to `Bearer ` followed by the token `getToken` returned, whatever
Authorization value the caller supplied in `opts.headers`; a caller-supplied
Accept header is preserved, and Accept defaults to application/json exactly
when absent. -/
theorem request_bearer_auth_spec (c : Client) (now : Nat) (tr : TokenResponse)
    (method path : String) (opts : ReqOpts) (tok : String)
    (htok : (getToken c now tr).result = .ok tok) :
    requestOp c now tr method path opts =
      .ok (mkRequest c.apiUrl method path opts tok, (getToken c now tr).client) ∧
    hget (mkRequest c.apiUrl method path opts tok).headers "Authorization" =
      some ("Bearer " ++ tok) ∧
    (∀ a, hget opts.headers "Accept" = some a →
      hget (mkRequest c.apiUrl method path opts tok).headers "Accept" = some a) ∧
    (hget opts.headers "Accept" = none →
      hget (mkRequest c.apiUrl method path opts tok).headers "Accept" =
        some "application/json") := by
  refine ⟨?_, ?_, ?_, ?_⟩
  · simp only [requestOp, htok]
  · rw [mkRequest_headers, buildHeaders_auth]
  · intro a ha
    rw [mkRequest_headers, buildHeaders_accept_some _ _ _ ha]
  · intro ha
    rw [mkRequest_headers, buildHeaders_accept_none _ _ ha]

/-- C10 witness: at a fresh client whose token request succeeds with token
`new`, the assembled request's Authorization header is `Bearer new` even
though the caller supplied a stale Authorization header, and Accept is
defaulted. -/
theorem request_bearer_auth_spec_witness :
    hget (mkRequest sampleClientNew.apiUrl "get" "devices" sampleOpts "new").headers
        "Authorization" = some ("Bearer " ++ "new") ∧
    hget (mkRequest sampleClientNew.apiUrl "get" "devices" sampleOpts "new").headers
        "Accept" = some "application/json" := by
  have h := request_bearer_auth_spec sampleClientNew 0 sampleTokenResponse "get" "devices"
    sampleOpts "new" rfl
  exact ⟨h.2.1, h.2.2.2 (by decide)⟩

/-! Helper lemmas about getToken. -/

theorem sendTokenRequest_requests (c : Client) (p : TokenRequestPayload) (now : Nat)
    (resp : TokenResponse) : (sendTokenRequest c p now resp).requests = [p] := by
  by_cases h : resp.ok = false <;> simp [sendTokenRequest, h]

theorem getToken_password_branch (c : Client) (now : Nat) (resp : TokenResponse)
    (h : truthyStr c.token = false ∨ now > c.tokenExpiration) :
    getToken c now resp = sendTokenRequest c (passwordPayload c) now resp := by
  simp only [getToken, if_pos h]

theorem getToken_refresh_branch (c : Client) (now : Nat) (resp : TokenResponse)
    (h1 : truthyStr c.token = true) (h2 : now ≤ c.tokenExpiration)
    (h3 : c.tokenExpiration ≤ now + 60000) :
    getToken c now resp = sendTokenRequest c (refreshPayload c) now resp := by
  have hnot : ¬(truthyStr c.token = false ∨ now > c.tokenExpiration) := by
    rw [h1]
    simp
    omega
  have hnot2 : ¬(c.tokenExpiration > now + 60000) := by omega
  simp only [getToken, if_neg hnot, if_neg hnot2]

theorem getToken_cached_branch (c : Client) (now : Nat) (resp : TokenResponse)
    (h1 : truthyStr c.token = true) (h2 : now + 60000 < c.tokenExpiration) :
    getToken c now resp =
      { result := .ok (c.token.getD ""), client := c, requests := [] } := by
  have hnot : ¬(truthyStr c.token = false ∨ now > c.tokenExpiration) := by
    rw [h1]
    simp
    omega
  simp only [getToken, if_neg hnot, if_pos h2]

theorem getToken_requests_le_one (c : Client) (now : Nat) (resp : TokenResponse) :
    (getToken c now resp).requests.length ≤ 1 := by
  by_cases h : truthyStr c.token = false ∨ now > c.tokenExpiration
  · rw [getToken_password_branch c now resp h, sendTokenRequest_requests]
    simp
  · push_neg at h
    obtain ⟨h1, h2⟩ := h
    have h1' : truthyStr c.token = true := by
      cases ht : truthyStr c.token
      · exact absurd ht h1
      · rfl
    by_cases h3 : c.tokenExpiration ≤ now + 60000
    · rw [getToken_refresh_branch c now resp h1' h2 h3, sendTokenRequest_requests]
      simp
    · rw [getToken_cached_branch c now resp h1' (by omega)]
      simp

/-- C4: getToken performs the three-way case split of lines 355-375: password
grant when no (truthy) token is held or now has passed the stored
expiration; refresh-token grant when a token is held, unexpired, and its
expiration is within 60 s (60000 ms) of now; otherwise the cached token is
returned with the client state untouched and no request issued. -/
theorem getToken_three_way_split (c : Client) (now : Nat) (resp : TokenResponse) :
    ((truthyStr c.token = false ∨ now > c.tokenExpiration) →
      (getToken c now resp).requests =
        [{ client_id := "testdroid-cloud-api", grant_type := "password",
           username := some c.username, password := some c.password,
           refresh_token := none }]) ∧
    (truthyStr c.token = true → now ≤ c.tokenExpiration →
      c.tokenExpiration ≤ now + 60000 →
      (getToken c now resp).requests =
        [{ client_id := "testdroid-cloud-api", grant_type := "refresh_token",
           username := none, password := none, refresh_token := c.refreshToken }]) ∧
    (truthyStr c.token = true → now + 60000 < c.tokenExpiration →
      getToken c now resp =
        { result := .ok (c.token.getD ""), client := c, requests := [] }) := by
  refine ⟨?_, ?_, ?_⟩
  · intro h
    rw [getToken_password_branch c now resp h, sendTokenRequest_requests]
    rfl
  · intro h1 h2 h3
    rw [getToken_refresh_branch c now resp h1 h2 h3, sendTokenRequest_requests]
    rfl
  · intro h1 h2
    exact getToken_cached_branch c now resp h1 h2

/-- C1: the claim also covers a held token whose expiration has passed, but
there getToken issues a password-grant request, not a refresh-grant one: a
client holding token `tok` expired at 1000 ms, called at 2000 ms, issues
exactly one request and its grant_type is `password`. -/
theorem getToken_expired_password_cex :
    ((getToken sampleClientExpired 2000 sampleTokenResponse).requests.map
      TokenRequestPayload.grant_type) = ["password"] ∧
    (["password"] : List String) ≠ ["refresh_token"] :=
  ⟨rfl, by decide⟩

/-- C1 (amended): for every client holding a token that is unexpired and
within 60 s of its stored expiration, getToken issues a refresh-token-grant
request, not a password-grant request; when the stored expiration has
passed, it issues a password-grant request instead. -/
theorem getToken_refresh_window_grants (c : Client) (now : Nat) (resp : TokenResponse)
    (htok : truthyStr c.token = true) :
    (now ≤ c.tokenExpiration → c.tokenExpiration ≤ now + 60000 →
      (getToken c now resp).requests.map TokenRequestPayload.grant_type =
        ["refresh_token"]) ∧
    (c.tokenExpiration < now →
      (getToken c now resp).requests.map TokenRequestPayload.grant_type =
        ["password"]) := by
  constructor
  · intro h2 h3
    rw [getToken_refresh_branch c now resp htok h2 h3, sendTokenRequest_requests]
    rfl
  · intro h2
    rw [getToken_password_branch c now resp (Or.inr h2), sendTokenRequest_requests]
    rfl

/-- C1 witness: a client holding a token unexpired but within 60 s of expiry
(expiration 50000 ms, call at 2000 ms) issues a refresh-token-grant request. -/
theorem getToken_refresh_window_grants_witness :
    (getToken sampleClientNear 2000 sampleTokenResponse).requests.map
      TokenRequestPayload.grant_type = ["refresh_token"] :=
  (getToken_refresh_window_grants sampleClientNear 2000 sampleTokenResponse
    (by decide)).1 (by decide) (by decide)

/-- C5: two successive getToken calls on a client with a cached token within
its validity window can issue zero requests in total, not exactly one: with
token `tok` expiring at 1000000 ms and both calls at 0 ms, both calls
return the cached token and no request is issued. -/
theorem getToken_two_calls_zero_requests_cex :
    (getToken sampleClientFresh 0 sampleTokenResponse).requests.length +
      (getToken (getToken sampleClientFresh 0 sampleTokenResponse).client 0
        sampleTokenResponse).requests.length = 0 ∧
    ¬((getToken sampleClientFresh 0 sampleTokenResponse).requests.length +
      (getToken (getToken sampleClientFresh 0 sampleTokenResponse).client 0
        sampleTokenResponse).requests.length = 1) :=
  ⟨rfl, by decide⟩

/-- C5 (amended): two successive getToken calls issue at most one
token-acquisition request in total whenever the client after the first call
holds a token whose expiration is more than 60 s beyond the second call's
time; the second call then issues no request, returns the cached token, and
leaves the token, refresh token and expiration fields unchanged. -/
theorem getToken_reuse_at_most_one (c : Client) (t1 t2 : Nat) (r1 r2 : TokenResponse)
    (htok : truthyStr (getToken c t1 r1).client.token = true)
    (hexp : t2 + 60000 < (getToken c t1 r1).client.tokenExpiration) :
    getToken (getToken c t1 r1).client t2 r2 =
      { result := .ok ((getToken c t1 r1).client.token.getD ""),
        client := (getToken c t1 r1).client, requests := [] } ∧
    (getToken c t1 r1).requests.length +
      (getToken (getToken c t1 r1).client t2 r2).requests.length ≤ 1 := by
  have h2 := getToken_cached_branch ((getToken c t1 r1).client) t2 r2 htok hexp
  refine ⟨h2, ?_⟩
  rw [h2]
  have h1 := getToken_requests_le_one c t1 r1
  simp only [List.length_nil]
  omega

/-- C5 witness: with a cached token far from expiry and both calls at 0 ms,
the two calls together issue at most one (here zero) requests. -/
theorem getToken_reuse_at_most_one_witness :
    (getToken sampleClientFresh 0 sampleTokenResponse).requests.length +
      (getToken (getToken sampleClientFresh 0 sampleTokenResponse).client 0
        sampleTokenResponse).requests.length ≤ 1 :=
  (getToken_reuse_at_most_one sampleClientFresh 0 0 sampleTokenResponse
    sampleTokenResponse (by decide) (by decide)).2

/-- C7: getDevicesByName fetches the device list unbounded (payload
limit = 0) and filters it client-side by strict display-name equality: the
result is exactly the sublist of fetched devices whose displayName equals
the requested name (sound and complete). -/
theorem getDevicesByName_exact_filter {α : Type} (deviceName : String)
    (res : Response (DevicesBody α)) (hok : res.ok = true) :
    (getDevicesByName deviceName res).1 = [("limit", "0")] ∧
    (getDevicesByName deviceName res).2 =
      .ok (res.body.data.filter fun d => d.displayName == deviceName) ∧
    (∀ d ∈ res.body.data.filter (fun d => d.displayName == deviceName),
      d.displayName = deviceName) ∧
    (∀ d ∈ res.body.data, d.displayName = deviceName →
      d ∈ res.body.data.filter fun d => d.displayName == deviceName) := by
  refine ⟨rfl, ?_, ?_, ?_⟩
  · simp [getDevicesByName, getDevices, Testdroid.get, hok, Except.map]
  · intro d hd
    rw [List.mem_filter] at hd
    simpa using hd.2
  · intro d hd hname
    rw [List.mem_filter]
    exact ⟨hd, by simpa using hname⟩

/-- C7 witness: on a mixed list with display names X, Y, X, asking for X
returns exactly the two X devices, and the query payload has limit 0. -/
theorem getDevicesByName_exact_filter_witness :
    (getDevicesByName "X" sampleDevicesResponse).1 = [("limit", "0")] ∧
    (getDevicesByName "X" sampleDevicesResponse).2 = .ok [⟨"X", 0⟩, ⟨"X", 2⟩] := by
  have h := getDevicesByName_exact_filter "X" sampleDevicesResponse rfl
  refine ⟨h.1, ?_⟩
  rw [h.2.1]
  rfl

/-! Helper lemmas about the getProxy polling loop. -/

theorem countAttempts_emptyAttemptEvents {α : Type} (resp : Nat → ProxyResponse α) :
    ∀ r i, countAttempts (emptyAttemptEvents resp i r) = r := by
  intro r
  induction r with
  | zero => intro i; rfl
  | succ n ih =>
    intro i
    have := ih (i + 1)
    simp only [countAttempts] at this ⊢
    simp [emptyAttemptEvents, List.countP_cons, isAttempt, this]

theorem getProxyLoop_count_le {α : Type} (resp : Nat → ProxyResponse α) :
    ∀ r i last, countAttempts (getProxyLoop resp i r last).1 ≤ r := by
  intro r
  induction r with
  | zero => intro i last; simp [getProxyLoop, countAttempts]
  | succ n ih =>
    intro i last
    by_cases hok : (resp i).ok = false
    · simp [getProxyLoop, hok, countAttempts, List.countP_cons, isAttempt]
    · have hok' : (resp i).ok = true := by
        revert hok
        cases (resp i).ok <;> simp
      cases hb : (resp i).body with
      | cons x xs =>
        simp [getProxyLoop, hok', hok, hb, countAttempts, List.countP_cons, isAttempt]
      | nil =>
        have hrec := ih (i + 1) (some (resp i))
        simp only [countAttempts] at hrec ⊢
        simp [getProxyLoop, hok', hok, hb, List.countP_cons, isAttempt]
        omega

theorem getProxyLoop_all_empty {α : Type} (resp : Nat → ProxyResponse α) :
    ∀ r i last, 1 ≤ r →
      (∀ k, i ≤ k → k < i + r → (resp k).ok = true ∧ (resp k).body = []) →
      getProxyLoop resp i r last =
        (emptyAttemptEvents resp i r, .ok (some (resp (i + r - 1)))) := by
  intro r
  induction r with
  | zero => intro i last h; omega
  | succ n ih =>
    intro i last _ hall
    have hi := hall i (Nat.le_refl i) (by omega)
    rcases Nat.eq_zero_or_pos n with hn | hn
    · subst hn
      simp [getProxyLoop, hi.1, hi.2, emptyAttemptEvents]
    · have hrest := ih (i + 1) (some (resp i)) hn
        (fun k hk1 hk2 => hall k (by omega) (by omega))
      have hidx : i + 1 + n - 1 = i + (n + 1) - 1 := by omega
      rw [hidx] at hrest
      simp [getProxyLoop, hi.1, hi.2, hrest, emptyAttemptEvents]

theorem getProxyLoop_break {α : Type} (resp : Nat → ProxyResponse α) :
    ∀ r i last j, i ≤ j → j < i + r →
      (∀ k, i ≤ k → k < j → (resp k).ok = true ∧ (resp k).body = []) →
      (resp j).ok = true → (resp j).body ≠ [] →
      getProxyLoop resp i r last =
        (emptyAttemptEvents resp i (j - i) ++ [ProxyEvent.attempt j (resp j)],
         .ok (some (resp j))) := by
  intro r
  induction r with
  | zero => intro i last j h1 h2 _ _ _; omega
  | succ n ih =>
    intro i last j hij hjr hall hok hbody
    rcases Nat.eq_or_lt_of_le hij with heq | hlt
    · subst heq
      have hne : (resp i).body.isEmpty = false := by
        cases hb : (resp i).body
        · exact absurd hb hbody
        · rfl
      simp [getProxyLoop, hok, hne, Nat.sub_self, emptyAttemptEvents]
    · have hi := hall i (Nat.le_refl i) hlt
      have hrest := ih (i + 1) (some (resp i)) j hlt (by omega)
        (fun k hk1 hk2 => hall k (by omega) hk2) hok hbody
      have hji : j - i = (j - (i + 1)) + 1 := by omega
      simp [getProxyLoop, hi.1, hi.2, hrest, hji, emptyAttemptEvents]

theorem getProxyLoop_error {α : Type} (resp : Nat → ProxyResponse α) :
    ∀ r i last j, i ≤ j → j < i + r →
      (∀ k, i ≤ k → k < j → (resp k).ok = true ∧ (resp k).body = []) →
      (resp j).ok = false →
      getProxyLoop resp i r last =
        (emptyAttemptEvents resp i (j - i) ++ [ProxyEvent.attempt j (resp j)],
         .error (resp j).error) := by
  intro r
  induction r with
  | zero => intro i last j h1 h2 _ _; omega
  | succ n ih =>
    intro i last j hij hjr hall hok
    rcases Nat.eq_or_lt_of_le hij with heq | hlt
    · subst heq
      simp [getProxyLoop, hok, Nat.sub_self, emptyAttemptEvents]
    · have hi := hall i (Nat.le_refl i) hlt
      have hrest := ih (i + 1) (some (resp i)) j hlt (by omega)
        (fun k hk1 hk2 => hall k (by omega) hk2) hok
      have hji : j - i = (j - (i + 1)) + 1 := by omega
      simp [getProxyLoop, hi.1, hi.2, hrest, hji, emptyAttemptEvents]

theorem getProxyLoop_ok_inv {α : Type} (resp : Nat → ProxyResponse α) :
    ∀ r i last res, (∀ l, last = some l → l.ok = true) →
      (getProxyLoop resp i r last).2 = .ok (some res) → res.ok = true := by
  intro r
  induction r with
  | zero =>
    intro i last res hlast h
    simp [getProxyLoop] at h
    exact hlast res h
  | succ n ih =>
    intro i last res hlast h
    by_cases hok : (resp i).ok = false
    · simp [getProxyLoop, hok] at h
    · have hok' : (resp i).ok = true := by
        revert hok
        cases (resp i).ok <;> simp
      cases hb : (resp i).body with
      | cons x xs =>
        simp [getProxyLoop, hok', hok, hb] at h
        rw [← h]
        exact hok'
      | nil =>
        simp only [getProxyLoop, hok', hok, hb] at h
        simp at h
        exact ih (i + 1) (some (resp i)) res
          (fun l hl => by rw [← Option.some_inj.mp hl]; exact hok') h

theorem getProxyLoop_ok_none {α : Type} (resp : Nat → ProxyResponse α) :
    ∀ r i last, (getProxyLoop resp i r last).2 = .ok none → last = none ∧ r = 0 := by
  intro r
  induction r with
  | zero =>
    intro i last h
    simp [getProxyLoop] at h
    exact ⟨h, rfl⟩
  | succ n ih =>
    intro i last h
    by_cases hok : (resp i).ok = false
    · simp [getProxyLoop, hok] at h
    · have hok' : (resp i).ok = true := by
        revert hok
        cases (resp i).ok <;> simp
      cases hb : (resp i).body with
      | cons x xs => simp [getProxyLoop, hok', hok, hb] at h
      | nil =>
        simp only [getProxyLoop, hok', hok, hb] at h
        simp at h
        exact absurd (ih (i + 1) (some (resp i)) h).1 (by simp)

theorem getProxyLoop_empty_inv {α : Type} (resp : Nat → ProxyResponse α) :
    ∀ r i last res, (getProxyLoop resp i r last).2 = .ok (some res) → res.body = [] →
      (r = 0 ∧ last = some res) ∨
      (1 ≤ r ∧ res = resp (i + r - 1) ∧
        ∀ k, i ≤ k → k < i + r → (resp k).ok = true ∧ (resp k).body = []) := by
  intro r
  induction r with
  | zero =>
    intro i last res h _
    simp [getProxyLoop] at h
    exact Or.inl ⟨rfl, h.symm ▸ rfl⟩
  | succ n ih =>
    intro i last res h hbody
    by_cases hok : (resp i).ok = false
    · simp [getProxyLoop, hok] at h
    · have hok' : (resp i).ok = true := by
        revert hok
        cases (resp i).ok <;> simp
      cases hb : (resp i).body with
      | cons x xs =>
        simp [getProxyLoop, hok', hok, hb] at h
        subst h
        rw [hb] at hbody
        exact absurd hbody (by simp)
      | nil =>
        simp only [getProxyLoop, hok', hok, hb] at h
        simp at h
        rcases ih (i + 1) (some (resp i)) res h hbody with ⟨hn, hlast⟩ | ⟨hn, hres, hall⟩
        · subst hn
          refine Or.inr ⟨by omega, ?_, ?_⟩
          · rw [Nat.add_sub_cancel, ← Option.some_inj.mp hlast]
          · intro k hk1 hk2
            have hk : k = i := by omega
            subst hk
            exact ⟨hok', hb⟩
        · refine Or.inr ⟨by omega, ?_, ?_⟩
          · rw [hres]
            congr 1
            omega
          · intro k hk1 hk2
            rcases Nat.eq_or_lt_of_le hk1 with hk | hk
            · subst hk
              exact ⟨hok', hb⟩
            · exact hall k (by omega) (by omega)

theorem getProxy_events_eq {α : Type} (resp : Nat → ProxyResponse α)
    (type sessionId : String) :
    (getProxy resp type sessionId).1 = (getProxyLoop resp 1 30 none).1 := by
  simp only [getProxy]
  split
  · rfl
  · rfl
  · split
    · rfl
    · split <;> rfl

/-- C3: getProxy issues at most 30 query attempts; when all 30 attempts
return an ok response with an empty result list, the trace is exactly 30
attempts each followed by a 5000 ms sleep and the call fails with the
retry-exhaustion (timeout) error; on the first attempt returning a nonempty
list the loop stops there (no sleep after it) and the first element of that
list is returned. -/
theorem getProxy_polling_spec {α : Type} (resp : Nat → ProxyResponse α)
    (type sessionId : String) :
    countAttempts (getProxy resp type sessionId).1 ≤ 30 ∧
    ((∀ k, 1 ≤ k → k ≤ 30 → (resp k).ok = true ∧ (resp k).body = []) →
      getProxy resp type sessionId =
        (emptyAttemptEvents resp 1 30,
         .error (ProxyError.timeout (proxyTimeoutMessage type sessionId)))) ∧
    (∀ k x xs, 1 ≤ k → k ≤ 30 →
      (∀ j, 1 ≤ j → j < k → (resp j).ok = true ∧ (resp j).body = []) →
      (resp k).ok = true → (resp k).body = x :: xs →
      getProxy resp type sessionId =
        (emptyAttemptEvents resp 1 (k - 1) ++ [ProxyEvent.attempt k (resp k)],
         .ok x)) := by
  refine ⟨?_, ?_, ?_⟩
  · rw [getProxy_events_eq]
    exact getProxyLoop_count_le resp 30 1 none
  · intro hall
    have hl := getProxyLoop_all_empty resp 30 1 none (by omega)
      (fun k hk1 hk2 => hall k hk1 (by omega))
    have h30 := hall 30 (by omega) (by omega)
    simp only [getProxy, hl]
    norm_num
    simp [h30.1, h30.2]
  · intro k x xs hk1 hk30 hprev hok hbody
    have hl := getProxyLoop_break resp 30 1 none k hk1 (by omega) hprev hok
      (by simp [hbody])
    simp only [getProxy, hl]
    simp [hok, hbody]

/-- C8: when a polling attempt inside getProxy receives a non-success
response while all earlier attempts were ok-and-empty, the error `get`
throws propagates out of getProxy at once — the trace ends at that attempt
and the result is that propagated request error; conversely the
retry-exhaustion (timeout) error is only reachable when every one of the 30
attempts received a success response with an empty result list. -/
theorem getProxy_error_propagation {α : Type} (resp : Nat → ProxyResponse α)
    (type sessionId : String) :
    (∀ j, 1 ≤ j → j ≤ 30 →
      (∀ i, 1 ≤ i → i < j → (resp i).ok = true ∧ (resp i).body = []) →
      (resp j).ok = false →
      getProxy resp type sessionId =
        (emptyAttemptEvents resp 1 (j - 1) ++ [ProxyEvent.attempt j (resp j)],
         .error (ProxyError.request (resp j).error))) ∧
    (∀ m, (getProxy resp type sessionId).2 = .error (ProxyError.timeout m) →
      ∀ i, 1 ≤ i → i ≤ 30 → (resp i).ok = true ∧ (resp i).body = []) := by
  constructor
  · intro j hj1 hj30 hprev hok
    have hl := getProxyLoop_error resp 30 1 none j hj1 (by omega) hprev hok
    simp only [getProxy, hl]
  · intro m hm i hi1 hi30
    cases hout : (getProxyLoop resp 1 30 none).2 with
    | error e => simp [getProxy, hout] at hm
    | ok o =>
      cases o with
      | none => exact absurd (getProxyLoop_ok_none resp 30 1 none hout).2 (by omega)
      | some res =>
        have hresok : res.ok = true :=
          getProxyLoop_ok_inv resp 30 1 none res (fun l hl => by cases hl) hout
        cases hb : res.body with
        | cons x xs => simp [getProxy, hout, hresok, hb] at hm
        | nil =>
          rcases getProxyLoop_empty_inv resp 30 1 none res hout hb with
            ⟨h30, _⟩ | ⟨_, _, hall⟩
          · exact absurd h30 (by omega)
          · exact hall i hi1 (by omega)

end Testdroid
